import Mathlib

/-!
Verification development for the SteamDownloadMonitor repository
(`src/main.py`). The Python source is shallowly embedded: each pure helper
becomes a Lean function, the filesystem is an explicit data model, machine
floats (wall-clock times, rates) are modelled as `ℚ`, Python `dict`s as
association lists, and the one uncaught-exception path is modelled with
`Except`.
-/

namespace SDM

/-! ## Python dict operations

`dictSetdefault` models `dict.setdefault(k, v)` (insert only if absent,
at the end, as Python dicts append new keys); `dictSet` models
`dict[k] = v` (replace in place, or append if absent). Lookup semantics
are those of `List.lookup` (first match). -/

/-- Model of Python `dict.setdefault`: keeps the existing binding if the key
is present, otherwise appends the new pair. -/
def dictSetdefault : List (String × String) → String → String → List (String × String)
  | [], k, v => [(k, v)]
  | (k1, v1) :: rest, k, v =>
    if k1 = k then (k1, v1) :: rest else (k1, v1) :: dictSetdefault rest k v

/-- Model of Python `dict[k] = v`: replaces the binding in place, or appends. -/
def dictSet {α : Type} : List (String × α) → String → α → List (String × α)
  | [], k, v => [(k, v)]
  | (k1, v1) :: rest, k, v =>
    if k1 = k then (k, v) :: rest else (k1, v1) :: dictSet rest k v

/-! ## Character and line utilities (models of the Python `str` operations used) -/

/-- Whitespace class of Python `str.strip` / regex `\s` (space, tab, newline,
carriage return, vertical tab, form feed). -/
def isSpace (c : Char) : Bool :=
  c = ' ' || c = '\t' || c = '\n' || c = '\r' || c = Char.ofNat 11 || c = Char.ofNat 12

/-- The opening-brace character. -/
def lbrace : Char := Char.ofNat 123

/-- The closing-brace character. -/
def rbrace : Char := Char.ofNat 125

/-- Model of Python `str.strip()` on a line, dropping leading and trailing
whitespace. -/
def pyStrip (cs : List Char) : List Char :=
  ((cs.dropWhile isSpace).reverse.dropWhile isSpace).reverse

/-- Model of `line.startswith("//")`. -/
def isCommentLine : List Char → Bool
  | '/' :: '/' :: _ => true
  | _ => false

/-- Model of Python `str.isdigit()` restricted to ASCII digits: nonempty and
all characters are digits. -/
def isdigitStr (cs : List Char) : Bool :=
  !cs.isEmpty && cs.all Char.isDigit

/-! ## The manifest line pattern

`matchKV` embeds the regex `_ACF_KV_RE = ^\s*"([^"]+)"\s*"([^"]*)"\s*$`
from `src/main.py` line 54. Because the character classes exclude only the
double quote, the greedy matches are exact and the regex is equivalent to
this deterministic scan. -/

/-- Model of `_ACF_KV_RE.match(line)`: an optional run of whitespace, a
quoted nonempty key, optional whitespace, a quoted (possibly empty) value,
optional trailing whitespace, end of line. -/
def matchKV (cs : List Char) : Option (String × String) :=
  match cs.dropWhile isSpace with
  | '\"' :: r1 =>
    let key := r1.takeWhile (fun d => d ≠ '\"')
    if key.isEmpty then none
    else
      match r1.drop key.length with
      | '\"' :: r2 =>
        match r2.dropWhile isSpace with
        | '\"' :: r3 =>
          let v := r3.takeWhile (fun d => d ≠ '\"')
          match r3.drop v.length with
          | '\"' :: r4 =>
            if (r4.dropWhile isSpace).isEmpty then some (key.asString, v.asString)
            else none
          | _ => none
        | _ => none
      | _ => none
  | _ => none

/-! ## The manifest parser (`parse_acf`, `src/main.py` lines 56-83)

A file is modelled as `Option (List (List Char))`: `none` when the path
does not exist (or the read raises, both yielding the empty record), `some
lines` for the result of `read_text(...).splitlines()`. The Python code
keeps a stack of `"{"` tokens; we keep the same stack of brace characters
(only its length is ever consulted). -/

/-- Parser state: the brace stack and the accumulated record. -/
structure ParseState where
  stack : List Char
  data : List (String × String)

/-- Outcome of the per-line tests of the loop body of `parse_acf`
(`src/main.py` lines 67-80): skip (blank, comment, or pattern miss), an
opening-brace line, a closing-brace line, or a matched key/value pair. -/
inductive LineKind where
  | skip
  | openBrace
  | closeBrace
  | pair (k v : String)

/-- The per-line tests of `parse_acf`, in source order: strip, skip blank
and comment lines, recognize brace lines, and otherwise try the pattern. -/
def classifyLine (rawLine : List Char) : LineKind :=
  let line := pyStrip rawLine
  if line.isEmpty || isCommentLine line then .skip
  else if line = [lbrace] then .openBrace
  else if line = [rbrace] then .closeBrace
  else
    match matchKV line with
    | some (k, v) => .pair k v
    | none => .skip

/-- One iteration of the `for line in ...` loop of `parse_acf`: push on an
opening brace, pop (only when nonempty) on a closing brace, record a
matched pair via `setdefault` only when the stack is nonempty. -/
def parseStep (st : ParseState) (rawLine : List Char) : ParseState :=
  match classifyLine rawLine with
  | .skip => st
  | .openBrace => { st with stack := lbrace :: st.stack }
  | .closeBrace =>
    match st.stack with
    | [] => st
    | _ :: t => { st with stack := t }
  | .pair k v =>
    if st.stack.length ≥ 1 then { st with data := dictSetdefault st.data k v } else st

/-- Model of `parse_acf`: `none` stands for a missing/unreadable file. -/
def parse_acf (contents : Option (List (List Char))) : List (String × String) :=
  match contents with
  | none => []
  | some lines => (lines.foldl parseStep ⟨[], []⟩).data

/-- Specification-side stream of recordable pairs: the key/value pairs that
match the quoted-pair pattern while the nesting depth is at least 1, in
file order, with the depth counter floored at zero (`Nat` subtraction). -/
def recordablePairs (d : Nat) : List (List Char) → List (String × String)
  | [] => []
  | raw :: ls =>
    match classifyLine raw with
    | .skip => recordablePairs d ls
    | .openBrace => recordablePairs (d + 1) ls
    | .closeBrace => recordablePairs (d - 1) ls
    | .pair k v => if d ≥ 1 then (k, v) :: recordablePairs d ls else recordablePairs d ls

/-! ### Parser lemmas -/

theorem oor_none_left {α : Type} (b : Option α) : Option.or none b = b := rfl

theorem oor_none_right {α : Type} (a : Option α) : Option.or a none = a := by
  cases a <;> rfl

theorem oor_some_left {α : Type} (a : α) (b : Option α) : Option.or (some a) b = some a := rfl

theorem oor_assoc {α : Type} (a b c : Option α) :
    Option.or (Option.or a b) c = Option.or a (Option.or b c) := by
  cases a <;> rfl

theorem lookup_cons {α : Type} (k k1 : String) (v : α) (t : List (String × α)) :
    List.lookup k ((k1, v) :: t) = if k = k1 then some v else List.lookup k t := by
  by_cases h : k = k1
  · subst h; simp [List.lookup]
  · have hb : (k == k1) = false := by simpa using h
    simp [List.lookup, hb, h]

theorem lookup_dictSetdefault (m : List (String × String)) (k k1 v : String) :
    List.lookup k (dictSetdefault m k1 v) =
      Option.or (List.lookup k m) (if k = k1 then some v else none) := by
  induction m with
  | nil =>
    show List.lookup k [(k1, v)] = Option.or (List.lookup k []) _
    rw [lookup_cons]
    by_cases hk : k = k1 <;> simp [hk, List.lookup, oor_none_left]
  | cons hd tl ih =>
    obtain ⟨k2, v2⟩ := hd
    by_cases h2 : k2 = k1
    · subst h2
      show List.lookup k (if k2 = k2 then (k2, v2) :: tl else _) = _
      rw [if_pos rfl, lookup_cons]
      by_cases hk : k = k2
      · simp [hk, oor_some_left]
      · simp [hk, oor_none_right]
    · show List.lookup k (if k2 = k1 then _ else (k2, v2) :: dictSetdefault tl k1 v) = _
      rw [if_neg h2, lookup_cons, lookup_cons]
      by_cases hk : k = k2
      · simp [hk, oor_some_left]
      · simp [hk, ih]

theorem lookup_fold (ls : List (List Char)) :
    ∀ (st : ParseState) (k : String),
      List.lookup k ((ls.foldl parseStep st).data) =
        Option.or (List.lookup k st.data)
          (List.lookup k (recordablePairs st.stack.length ls)) := by
  induction ls with
  | nil => intro st k; simp [recordablePairs, List.lookup, oor_none_right]
  | cons raw tl ih =>
    intro st k
    rw [List.foldl_cons, ih]
    cases hc : classifyLine raw with
    | skip => simp only [recordablePairs, hc, parseStep]
    | openBrace =>
      simp only [recordablePairs, hc, parseStep]
      rfl
    | closeBrace =>
      simp only [recordablePairs, hc, parseStep]
      cases hst : st.stack with
      | nil => simp [hst]
      | cons c t => simp [hst]
    | pair k1 v1 =>
      simp only [recordablePairs, hc, parseStep]
      by_cases hd : st.stack.length ≥ 1
      · simp only [hd, if_true]
        show Option.or (List.lookup k (dictSetdefault st.data k1 v1)) _ = _
        rw [lookup_dictSetdefault, lookup_cons]
        by_cases hk : k = k1
        · simp only [hk, if_true, reduceIte]
          rw [oor_assoc, oor_some_left]
        · simp only [hk, if_false, reduceIte]
          rw [oor_none_right]
      · simp only [hd, if_false]

/-- Shared helper: the record produced by the parser answers every lookup
exactly as the first-match lookup in the stream of recordable pairs. -/
theorem parse_acf_lookup (ls : List (List Char)) (k : String) :
    List.lookup k (parse_acf (some ls)) = List.lookup k (recordablePairs 0 ls) := by
  show List.lookup k ((ls.foldl parseStep ⟨[], []⟩).data) = _
  rw [lookup_fold]
  simp [Option.or]

/-! ## The directory size scanner (`dir_size_bytes`, `src/main.py` lines 93-105)

A directory listing is modelled as the inductive `FS`: a sequence of
entries, each either a regular file (with `some size` when `stat`
succeeds, `none` when it raises and the per-file `except` swallows it) or
a subdirectory (with `some listing` when readable, `none` when `os.walk`'s
default error handling silently skips the subtree). The root argument of
`dir_size_bytes` is `none` when the path does not exist or cannot be
traversed at all, in which case `os.walk` yields nothing. -/

/-- A directory listing: `file` and `dir` entries each carry the rest of
the listing, so all recursion is structural. An unreadable subdirectory
gets its own constructor. -/
inductive FS where
  | nil : FS
  | file (stat : Option Nat) (rest : FS)
  | dirUnreadable (rest : FS)
  | dir (listing : FS) (rest : FS)

/-- The `os.walk` summation loop of `dir_size_bytes`: stat failures add
nothing, unreadable subdirectories are skipped whole. -/
def walkSize : FS → Nat
  | .nil => 0
  | .file none rest => walkSize rest
  | .file (some n) rest => n + walkSize rest
  | .dirUnreadable rest => walkSize rest
  | .dir sub rest => walkSize sub + walkSize rest

/-- Model of `dir_size_bytes`: a nonexistent or untraversable root makes
`os.walk` yield nothing, so the total is 0. -/
def dir_size_bytes : Option FS → Nat
  | none => 0
  | some listing => walkSize listing

/-- Specification-side list of the sizes of every regular file reachable by
recursive descent whose `stat` succeeds. -/
def reachSizes : FS → List Nat
  | .nil => []
  | .file none rest => reachSizes rest
  | .file (some n) rest => n :: reachSizes rest
  | .dirUnreadable rest => reachSizes rest
  | .dir sub rest => reachSizes sub ++ reachSizes rest

theorem walkSize_eq_sum (l : FS) : walkSize l = (reachSizes l).sum := by
  induction l with
  | nil => rfl
  | file stat rest ih => cases stat <;> simp [walkSize, reachSizes, ih]
  | dirUnreadable rest ih => simp [walkSize, reachSizes, ih]
  | dir sub rest ih1 ih2 => simp [walkSize, reachSizes, ih1, ih2]

/-! ## The active-download selector (`find_active_download`, `src/main.py` lines 107-135)

Filesystem state for one scan. Wall-clock times (`st_mtime`, `time.time()`)
are modelled as `ℚ`. Each entry of the `downloading` directory records the
`stat` result observed during enumeration (`statEnum`, `none` when the
`stat` call raises and the entry is skipped) and the `stat` result at the
later per-candidate acceptance check (`statCheck`, `none` when the
directory has vanished in between, so that `stat` raises). The directory's
contents at check time are the `FS` listing `tree` fed to
`dir_size_bytes`. Manifest files are a map from appid to file contents. -/

/-- One entry of the `downloading` directory. -/
structure DirEntry where
  name : String
  isDir : Bool
  statEnum : Option ℚ
  statCheck : Option ℚ
  tree : Option FS

/-- Filesystem state of one polling round's scan. -/
structure ScanFS where
  downloadingExists : Bool
  entries : List DirEntry
  now : ℚ
  manifests : String → Option (List (List Char))

/-- Result record of the selector (`ActiveDownload` dataclass, lines 85-91).
The `download_dir` path is represented by the candidate's directory name. -/
structure ActiveDownload where
  appid : String
  name : String
  state : String
  download_dir : String
  bytes_on_disk : Nat

/-- Model of Python's `x or y` for an optional string: `None` and the empty
string are falsy, so both fall through to the right operand. -/
def pyOr (v : Option String) (dflt : String) : String :=
  match v with
  | some s => if s = "" then dflt else s
  | none => dflt

/-- Construction of the accepted candidate's `ActiveDownload` (lines
128-133): parse `appmanifest_<appid>.acf`, resolve the display name with
`info.get("name") or f"AppID <appid>"`, tag state `"downloading"`. -/
def mkActive (fs : ScanFS) (app_dir : DirEntry) (size_b : Nat) : ActiveDownload :=
  let appid := app_dir.name
  let info := parse_acf (fs.manifests appid)
  { appid := appid
    name := pyOr (List.lookup "name" info) ("AppID " ++ appid)
    state := "downloading"
    download_dir := appid
    bytes_on_disk := size_b }

/-- Candidate enumeration (lines 112-119): numeric-named subdirectories
whose enumeration `stat` succeeded, paired with their mtime. -/
def candidatesOf (fs : ScanFS) : List (ℚ × DirEntry) :=
  fs.entries.filterMap fun e =>
    if e.isDir && isdigitStr e.name.toList then e.statEnum.map (fun m => (m, e)) else none

/-- Sort key of line 124: most recently modified first. -/
def byMtimeDesc (a b : ℚ × DirEntry) : Prop := b.1 ≤ a.1

instance : DecidableRel byMtimeDesc := fun a b => inferInstanceAs (Decidable (b.1 ≤ a.1))

instance : IsTotal (ℚ × DirEntry) byMtimeDesc := ⟨fun a b => le_total b.1 a.1⟩

instance : IsTrans (ℚ × DirEntry) byMtimeDesc := ⟨fun _ _ _ hab hbc => le_trans hbc hab⟩

/-- The acceptance loop of lines 125-133. The `or` short-circuits exactly
as in Python: the fresh `app_dir.stat()` runs only when the size test
fails, and if the directory has vanished by then, the `stat` raises — an
exception no handler catches, modelled as `Except.error ()`. -/
def selectorLoop (fs : ScanFS) : List (ℚ × DirEntry) → Except Unit (Option ActiveDownload)
  | [] => .ok none
  | c :: rest =>
    let app_dir := c.2
    let size_b := dir_size_bytes app_dir.tree
    if 0 < size_b then .ok (some (mkActive fs app_dir size_b))
    else
      match app_dir.statCheck with
      | none => .error ()
      | some m =>
        if fs.now - m < 10 * 60 then .ok (some (mkActive fs app_dir size_b))
        else selectorLoop fs rest

/-- Model of `find_active_download`: missing `downloading` directory and
empty candidate list short-circuit to no result; otherwise the candidates
are sorted by mtime descending (Python's sort is stable, as is insertion
sort) and the top 5 are scanned. -/
def find_active_download (fs : ScanFS) : Except Unit (Option ActiveDownload) :=
  if fs.downloadingExists then
    if (candidatesOf fs).isEmpty then .ok none
    else selectorLoop fs ((List.insertionSort byMtimeDesc (candidatesOf fs)).take 5)
  else .ok none

/-- Specification-side acceptance test of line 127: nonzero on-disk size,
or modified less than 10 minutes ago. -/
def accepts (fs : ScanFS) (c : ℚ × DirEntry) : Bool :=
  decide (0 < dir_size_bytes c.2.tree) || decide (fs.now - c.1 < 10 * 60)

/-! ### Selector lemmas -/

theorem selectorLoop_eq_find (fs : ScanFS) (l : List (ℚ × DirEntry))
    (h : ∀ c ∈ l, c.2.statCheck = some c.1) :
    selectorLoop fs l =
      .ok ((l.find? (accepts fs)).map (fun c => mkActive fs c.2 (dir_size_bytes c.2.tree))) := by
  induction l with
  | nil => rfl
  | cons c rest ih =>
    have hc : c.2.statCheck = some c.1 := h c (by simp)
    by_cases hs : 0 < dir_size_bytes c.2.tree
    · have ha : accepts fs c = true := by simp [accepts, hs]
      rw [List.find?_cons_of_pos _ ha]
      simp [selectorLoop, hs]
    · by_cases ht : fs.now - c.1 < 10 * 60
      · have ha : accepts fs c = true := by simp [accepts, ht]
        rw [List.find?_cons_of_pos _ ha]
        simp [selectorLoop, hs, hc, ht]
      · have ha : ¬accepts fs c = true := by simp [accepts, hs, ht]
        rw [List.find?_cons_of_neg _ ha]
        rw [show selectorLoop fs (c :: rest) =
              (if 0 < dir_size_bytes c.2.tree then
                .ok (some (mkActive fs c.2 (dir_size_bytes c.2.tree)))
              else
                match c.2.statCheck with
                | none => .error ()
                | some m =>
                  if fs.now - m < 10 * 60 then
                    .ok (some (mkActive fs c.2 (dir_size_bytes c.2.tree)))
                  else selectorLoop fs rest) from rfl]
        rw [if_neg hs, hc]
        simp only [ht, if_false, reduceIte]
        exact ih (fun d hd => h d (List.mem_cons_of_mem _ hd))

theorem selectorLoop_ok_some (fs : ScanFS) (l : List (ℚ × DirEntry)) (a : ActiveDownload)
    (h : selectorLoop fs l = .ok (some a)) :
    ∃ c ∈ l, a = mkActive fs c.2 (dir_size_bytes c.2.tree) := by
  induction l with
  | nil => simp [selectorLoop] at h
  | cons c rest ih =>
    rw [show selectorLoop fs (c :: rest) =
          (if 0 < dir_size_bytes c.2.tree then
            .ok (some (mkActive fs c.2 (dir_size_bytes c.2.tree)))
          else
            match c.2.statCheck with
            | none => .error ()
            | some m =>
              if fs.now - m < 10 * 60 then
                .ok (some (mkActive fs c.2 (dir_size_bytes c.2.tree)))
              else selectorLoop fs rest) from rfl] at h
    by_cases hs : 0 < dir_size_bytes c.2.tree
    · rw [if_pos hs] at h
      refine ⟨c, by simp, ?_⟩
      simpa using h.symm
    · rw [if_neg hs] at h
      cases hst : c.2.statCheck with
      | none => rw [hst] at h; exact absurd h (by simp)
      | some m =>
        rw [hst] at h
        dsimp only at h
        by_cases ht : fs.now - m < 10 * 60
        · rw [if_pos ht] at h
          refine ⟨c, by simp, ?_⟩
          simpa using h.symm
        · rw [if_neg ht] at h
          obtain ⟨d, hd, hda⟩ := ih h
          exact ⟨d, List.mem_cons_of_mem _ hd, hda⟩

theorem find_ok_some (fs : ScanFS) (a : ActiveDownload)
    (h : find_active_download fs = .ok (some a)) :
    ∃ c ∈ (List.insertionSort byMtimeDesc (candidatesOf fs)).take 5,
      a = mkActive fs c.2 (dir_size_bytes c.2.tree) := by
  unfold find_active_download at h
  by_cases h1 : fs.downloadingExists
  · rw [if_pos h1] at h
    by_cases h2 : (candidatesOf fs).isEmpty
    · rw [if_pos h2] at h; exact absurd h (by simp)
    · rw [if_neg h2] at h
      exact selectorLoop_ok_some fs _ a h
  · rw [if_neg h1] at h; exact absurd h (by simp)

theorem mem_candidatesOf (fs : ScanFS) (c : ℚ × DirEntry) (h : c ∈ candidatesOf fs) :
    c.2 ∈ fs.entries ∧ c.2.statEnum = some c.1 := by
  unfold candidatesOf at h
  rw [List.mem_filterMap] at h
  obtain ⟨e, he, heq⟩ := h
  by_cases hd : e.isDir && isdigitStr e.name.toList
  · rw [if_pos hd] at heq
    cases hme : e.statEnum with
    | none => rw [hme] at heq; simp at heq
    | some m =>
      rw [hme] at heq
      rw [show (some m).map (fun mt => (mt, e)) = some (m, e) from rfl] at heq
      cases heq
      exact ⟨he, hme⟩
  · rw [if_neg hd] at heq; simp at heq

/-! ## The rate estimator (`main`, `src/main.py` lines 191-219)

One polling round's rate-estimation block, given the current time `now`
and the selector's verdict. `prev` and `prev_time` are the two
process-lifetime dicts (RateState). Python floats are modelled as `ℚ`;
the byte delta is an `Int` as in Python integer arithmetic. -/

/-- The two RateState dicts of lines 191-192. -/
structure RateMaps where
  prev : List (String × Nat)
  prev_time : List (String × ℚ)

/-- The quantities the round prints for an active download: clamped byte
delta, rate, and classified status. -/
structure Report where
  delta : Int
  rate : ℚ
  status : String

/-- Model of lines 199-219: on no active download the state is untouched;
otherwise compute the clamped delta over the elapsed time (previous size
defaults to the current size, previous time to one interval ago, elapsed
floored at 1), classify against the 256 KiB threshold, and store
`(current size, now)` for the active package. -/
def rateRound (interval : ℚ) (maps : RateMaps) (now : ℚ) (active : Option ActiveDownload) :
    RateMaps × Option Report :=
  match active with
  | none => (maps, none)
  | some a =>
    let last_b : Nat := (List.lookup a.appid maps.prev).getD a.bytes_on_disk
    let last_t : ℚ := (List.lookup a.appid maps.prev_time).getD (now - interval)
    let dt : ℚ := max 1 (now - last_t)
    let delta : Int := max 0 ((a.bytes_on_disk : Int) - (last_b : Int))
    let rate : ℚ := (delta : ℚ) / dt
    let status : String := if delta < 256 * 1024 then "paused or idle" else "downloading"
    (⟨dictSet maps.prev a.appid a.bytes_on_disk, dictSet maps.prev_time a.appid now⟩,
      some ⟨delta, rate, status⟩)

/-! ### Rate estimator lemmas -/

theorem lookup_dictSet_self {α : Type} (m : List (String × α)) (k : String) (v : α) :
    List.lookup k (dictSet m k v) = some v := by
  induction m with
  | nil => simp [dictSet, lookup_cons]
  | cons hd tl ih =>
    obtain ⟨k1, v1⟩ := hd
    by_cases h : k1 = k
    · show List.lookup k (if k1 = k then (k, v) :: tl else _) = _
      rw [if_pos h, lookup_cons, if_pos rfl]
    · show List.lookup k (if k1 = k then _ else (k1, v1) :: dictSet tl k v) = _
      rw [if_neg h, lookup_cons, if_neg (fun hk => h hk.symm)]
      exact ih

theorem lookup_dictSet_ne {α : Type} (m : List (String × α)) (k k1 : String) (v : α)
    (hne : k1 ≠ k) : List.lookup k1 (dictSet m k v) = List.lookup k1 m := by
  induction m with
  | nil =>
    have hb : (k1 == k) = false := by simpa using hne
    simp [dictSet, List.lookup, hb]
  | cons hd tl ih =>
    obtain ⟨k2, v2⟩ := hd
    by_cases h : k2 = k
    · show List.lookup k1 (if k2 = k then (k, v) :: tl else _) = _
      rw [if_pos h, lookup_cons, lookup_cons, if_neg hne]
      rw [if_neg (fun hk => hne (hk.trans h))]
    · show List.lookup k1 (if k2 = k then _ else (k2, v2) :: dictSet tl k v) = _
      rw [if_neg h, lookup_cons, lookup_cons]
      by_cases hk : k1 = k2
      · simp [hk]
      · simp [hk, ih]

theorem appid_label_ne_empty (s : String) : "AppID " ++ s ≠ "" := by
  intro h
  have h2 : ("AppID " ++ s).length = 0 := by rw [h]; rfl
  rw [String.length_append] at h2
  have h3 : ("AppID " : String).length = 6 := rfl
  omega

/-! ## Concrete inputs used by witnesses and counterexamples -/

/-- A scan state whose single candidate vanished between enumeration and
the acceptance check: `statCheck = none`, size scans to 0. -/
def vanishedFS : ScanFS :=
  { downloadingExists := true
    entries := [{ name := "123", isDir := true, statEnum := some 100,
                  statCheck := none, tree := none }]
    now := 1000
    manifests := fun _ => none }

/-- A scan state with one fresh nonempty candidate and no manifest file. -/
def noNameFS : ScanFS :=
  { downloadingExists := true
    entries := [{ name := "7", isDir := true, statEnum := some 100,
                  statCheck := some 100, tree := some (.file (some 5) .nil) }]
    now := 1000
    manifests := fun _ => none }

/-- A scan state whose manifest carries an empty `name` value. -/
def emptyNameFS : ScanFS :=
  { downloadingExists := true
    entries := [{ name := "9", isDir := true, statEnum := some 100,
                  statCheck := some 100, tree := some (.file (some 5) .nil) }]
    now := 1000
    manifests := fun _ => some [[lbrace], "\"name\" \"\"".toList, [rbrace]] }

/-- A scan state whose manifest carries the name `CoolApp`. -/
def namedFS : ScanFS :=
  { downloadingExists := true
    entries := [{ name := "3", isDir := true, statEnum := some 100,
                  statCheck := some 100, tree := some (.file (some 5) .nil) }]
    now := 1000
    manifests := fun _ => some [[lbrace], "\"name\" \"CoolApp\"".toList, [rbrace]] }

/-- A scan state with two candidates: a stale empty one (more recent) and
an older one holding 7 bytes. -/
def twoCandFS : ScanFS :=
  { downloadingExists := true
    entries := [{ name := "10", isDir := true, statEnum := some 100,
                  statCheck := some 100, tree := some .nil },
                { name := "20", isDir := true, statEnum := some 50,
                  statCheck := some 50, tree := some (.file (some 7) .nil) }]
    now := 1000
    manifests := fun _ => none }

/-- Manifest lines with a duplicated `name` key inside the outer block. -/
def dupLines : List (List Char) :=
  [[lbrace], "\"name\" \"First\"".toList, "\"name\" \"Second\"".toList, [rbrace]]

/-- An active download of 1,000,000 bytes seen for the first time. -/
def firstObs : ActiveDownload :=
  { appid := "123", name := "AppID 123", state := "downloading",
    download_dir := "123", bytes_on_disk := 1000000 }

/-- An active download whose on-disk size shrank from the recorded 500
bytes down to 400. -/
def shrunkObs : ActiveDownload :=
  { appid := "123", name := "AppID 123", state := "downloading",
    download_dir := "123", bytes_on_disk := 400 }

/-- An active download distinct from the packages already in RateState. -/
def prevObs : ActiveDownload :=
  { appid := "9", name := "AppID 9", state := "downloading",
    download_dir := "9", bytes_on_disk := 42 }

/-! ## Claim theorems -/

/-- C1 (counterexample): on the first-ever observation of package `"123"`
with current size 1,000,000 and polling interval 60, the code reports a
delta of 0 and a rate of 0 — not 1,000,000 / 60 as the claim states —
because the previous size defaults to the current size. -/
theorem first_observation_rate_zero_counterexample :
    (rateRound 60 ⟨[], []⟩ 1000 (some firstObs)).2 = some ⟨0, 0, "paused or idle"⟩ ∧
    (0 : ℚ) ≠ 1000000 / 60 := by
  refine ⟨?_, by norm_num⟩
  simp [rateRound, firstObs, List.lookup]

/-- C1 (amended): for the first-ever observation of a package (no prior
RateState entry), the Rate Estimator reports a delta of 0 and a rate of
0 units/sec, classified "paused or idle": the previous size defaults to
the current size, so the delta is clamped to zero even though the elapsed
time defaults to one nominal polling interval. -/
theorem rate_first_observation_zero (interval now : ℚ) (maps : RateMaps)
    (a : ActiveDownload) (h : List.lookup a.appid maps.prev = none) :
    ∃ r : Report, (rateRound interval maps now (some a)).2 = some r ∧
      r.delta = 0 ∧ r.rate = 0 ∧ r.status = "paused or idle" := by
  have hb : (List.lookup a.appid maps.prev).getD a.bytes_on_disk = a.bytes_on_disk := by
    rw [h]
    rfl
  refine ⟨_, rfl, ?_, ?_, ?_⟩
  · show max 0 ((a.bytes_on_disk : Int) -
      ((List.lookup a.appid maps.prev).getD a.bytes_on_disk : Int)) = 0
    rw [hb]
    simp
  · show (((max 0 ((a.bytes_on_disk : Int) -
      ((List.lookup a.appid maps.prev).getD a.bytes_on_disk : Int))) : Int) : ℚ) / _ = 0
    rw [hb]
    simp
  · show (if max 0 ((a.bytes_on_disk : Int) -
        ((List.lookup a.appid maps.prev).getD a.bytes_on_disk : Int)) < 256 * 1024 then
        "paused or idle" else "downloading") = "paused or idle"
    rw [hb]
    norm_num

/-- C1 (witness): the amended statement at the concrete first observation
of package `"123"` with size 1,000,000 and interval 60. -/
theorem rate_first_observation_zero_witness :
    ∃ r : Report, (rateRound 60 ⟨[], []⟩ 1000 (some firstObs)).2 = some r ∧
      r.delta = 0 ∧ r.rate = 0 ∧ r.status = "paused or idle" :=
  rate_first_observation_zero 60 1000 ⟨[], []⟩ firstObs rfl

/-- C2 (code bug): when the single candidate directory vanishes between
enumeration and the per-candidate check (its size scans to 0 and the
fresh `stat` raises), `find_active_download` propagates the exception —
modelled as `Except.error ()` — instead of recovering locally, so the
polling round aborts, contradicting the claim. -/
theorem selector_error_on_vanished_candidate :
    find_active_download vanishedFS = .error () := rfl

/-- C3 (counterexample): with no manifest, the resolved display name is
"AppID 7", not the claimed "Package 7"; and with a manifest whose `name`
value is the empty string (a present key), the resolved name is the
fallback label, not the manifest value. -/
theorem display_name_label_counterexample :
    (find_active_download noNameFS = .ok (some ⟨"7", "AppID 7", "downloading", "7", 5⟩) ∧
      List.lookup "name" (parse_acf (noNameFS.manifests "7")) = none ∧
      ("AppID 7" : String) ≠ "Package 7") ∧
    (find_active_download emptyNameFS = .ok (some ⟨"9", "AppID 9", "downloading", "9", 5⟩) ∧
      List.lookup "name" (parse_acf (emptyNameFS.manifests "9")) = some "" ∧
      ("AppID 9" : String) ≠ "") :=
  ⟨⟨rfl, rfl, by decide⟩, ⟨rfl, rfl, by decide⟩⟩

/-- C3 (amended): for every accepted candidate, the resolved display name
equals the manifest's `name` value whenever that key is present with a
non-empty value, and otherwise (key absent, or present with an empty
value) equals the synthesized label "AppID <id>". -/
theorem display_name_resolution (fs : ScanFS) (a : ActiveDownload)
    (h : find_active_download fs = .ok (some a)) :
    (∀ v, List.lookup "name" (parse_acf (fs.manifests a.appid)) = some v → v ≠ "" →
      a.name = v) ∧
    (List.lookup "name" (parse_acf (fs.manifests a.appid)) = none →
      a.name = "AppID " ++ a.appid) ∧
    (List.lookup "name" (parse_acf (fs.manifests a.appid)) = some "" →
      a.name = "AppID " ++ a.appid) := by
  obtain ⟨c, _, ha⟩ := find_ok_some fs a h
  subst ha
  refine ⟨?_, ?_, ?_⟩
  · intro v hv hne
    show pyOr (List.lookup "name" (parse_acf (fs.manifests
      (mkActive fs c.2 (dir_size_bytes c.2.tree)).appid)))
      ("AppID " ++ (mkActive fs c.2 (dir_size_bytes c.2.tree)).appid) = v
    rw [hv]
    simp [pyOr, hne]
  · intro hv
    show pyOr (List.lookup "name" (parse_acf (fs.manifests
      (mkActive fs c.2 (dir_size_bytes c.2.tree)).appid)))
      ("AppID " ++ (mkActive fs c.2 (dir_size_bytes c.2.tree)).appid) =
      "AppID " ++ (mkActive fs c.2 (dir_size_bytes c.2.tree)).appid
    rw [hv]
    rfl
  · intro hv
    show pyOr (List.lookup "name" (parse_acf (fs.manifests
      (mkActive fs c.2 (dir_size_bytes c.2.tree)).appid)))
      ("AppID " ++ (mkActive fs c.2 (dir_size_bytes c.2.tree)).appid) =
      "AppID " ++ (mkActive fs c.2 (dir_size_bytes c.2.tree)).appid
    rw [hv]
    simp [pyOr]

/-- C3 (witness): the amended statement at a concrete scan whose manifest
names the package `CoolApp`. -/
theorem display_name_resolution_witness :
    (∀ v, List.lookup "name" (parse_acf (namedFS.manifests
      (⟨"3", "CoolApp", "downloading", "3", 5⟩ : ActiveDownload).appid)) = some v → v ≠ "" →
      (⟨"3", "CoolApp", "downloading", "3", 5⟩ : ActiveDownload).name = v) ∧
    (List.lookup "name" (parse_acf (namedFS.manifests
      (⟨"3", "CoolApp", "downloading", "3", 5⟩ : ActiveDownload).appid)) = none →
      (⟨"3", "CoolApp", "downloading", "3", 5⟩ : ActiveDownload).name =
        "AppID " ++ (⟨"3", "CoolApp", "downloading", "3", 5⟩ : ActiveDownload).appid) ∧
    (List.lookup "name" (parse_acf (namedFS.manifests
      (⟨"3", "CoolApp", "downloading", "3", 5⟩ : ActiveDownload).appid)) = some "" →
      (⟨"3", "CoolApp", "downloading", "3", 5⟩ : ActiveDownload).name =
        "AppID " ++ (⟨"3", "CoolApp", "downloading", "3", 5⟩ : ActiveDownload).appid) :=
  display_name_resolution namedFS ⟨"3", "CoolApp", "downloading", "3", 5⟩ rfl

/-- C4: as long as no candidate changes under the scan, the Selector sorts
the numeric-named candidates by last-modified timestamp descending (the
sorted list is a permutation of the candidates, ordered by `byMtimeDesc`),
examines at most the first 5 in that order, and returns the first one
whose on-disk size is positive or whose age is under 10 minutes — and no
active download when every considered candidate fails the test (the
`find?` on the right is `none` exactly then). -/
theorem selector_sorted_top5_first_accepted (fs : ScanFS)
    (h1 : fs.downloadingExists = true)
    (h2 : ∀ e ∈ fs.entries, e.statCheck = e.statEnum) :
    (List.insertionSort byMtimeDesc (candidatesOf fs)).Perm (candidatesOf fs) ∧
    List.Sorted byMtimeDesc (List.insertionSort byMtimeDesc (candidatesOf fs)) ∧
    find_active_download fs =
      .ok ((((List.insertionSort byMtimeDesc (candidatesOf fs)).take 5).find?
          (accepts fs)).map
        (fun c => mkActive fs c.2 (dir_size_bytes c.2.tree))) := by
  refine ⟨List.perm_insertionSort _ _, List.sorted_insertionSort _ _, ?_⟩
  unfold find_active_download
  rw [if_pos h1]
  by_cases he : (candidatesOf fs).isEmpty
  · rw [if_pos he]
    have hnil : candidatesOf fs = [] := by
      cases hc : candidatesOf fs with
      | nil => rfl
      | cons x xs => rw [hc] at he; simp [List.isEmpty] at he
    rw [hnil]
    rfl
  · rw [if_neg he]
    apply selectorLoop_eq_find
    intro c hc
    have hmem : c ∈ List.insertionSort byMtimeDesc (candidatesOf fs) :=
      List.mem_of_mem_take hc
    have hmem2 : c ∈ candidatesOf fs :=
      ((List.perm_insertionSort byMtimeDesc (candidatesOf fs)).mem_iff).mp hmem
    obtain ⟨hent, hstat⟩ := mem_candidatesOf fs c hmem2
    rw [h2 c.2 hent, hstat]

/-- C4 (witness): the statement at a concrete scan with two candidates, a
more recent empty stale one and an older one holding 7 bytes. -/
theorem selector_sorted_top5_first_accepted_witness :
    (List.insertionSort byMtimeDesc (candidatesOf twoCandFS)).Perm (candidatesOf twoCandFS) ∧
    List.Sorted byMtimeDesc (List.insertionSort byMtimeDesc (candidatesOf twoCandFS)) ∧
    find_active_download twoCandFS =
      .ok ((((List.insertionSort byMtimeDesc (candidatesOf twoCandFS)).take 5).find?
          (accepts twoCandFS)).map
        (fun c => mkActive twoCandFS c.2 (dir_size_bytes c.2.tree))) :=
  selector_sorted_top5_first_accepted twoCandFS rfl (by
    intro e he
    simp only [twoCandFS, List.mem_cons, List.mem_singleton] at he
    rcases he with rfl | rfl | he
    · rfl
    · rfl
    · exact absurd he (List.not_mem_nil e))

/-- C5: in a round with an active download whose package has a recorded
previous size, the delta is `max 0 (current − previous)` — never negative,
and zero on a size decrease — and the status is "paused or idle" exactly
when the delta is below 256 KiB (262144 bytes), otherwise "downloading". -/
theorem rate_delta_clamp_and_threshold (interval now : ℚ) (maps : RateMaps)
    (a : ActiveDownload) (pb : Nat) (h : List.lookup a.appid maps.prev = some pb) :
    ∃ r : Report, (rateRound interval maps now (some a)).2 = some r ∧
      r.delta = max 0 ((a.bytes_on_disk : Int) - (pb : Int)) ∧
      0 ≤ r.delta ∧
      (a.bytes_on_disk < pb → r.delta = 0) ∧
      (r.status = "paused or idle" ↔ r.delta < 256 * 1024) ∧
      (r.status = "downloading" ↔ ¬r.delta < 256 * 1024) := by
  have hb : (List.lookup a.appid maps.prev).getD a.bytes_on_disk = pb := by
    rw [h]
    rfl
  refine ⟨_, rfl, ?_, ?_, ?_, ?_, ?_⟩
  · show max 0 ((a.bytes_on_disk : Int) -
      ((List.lookup a.appid maps.prev).getD a.bytes_on_disk : Int)) = _
    rw [hb]
  · show (0 : Int) ≤ max 0 _
    exact le_max_left 0 _
  · intro hlt
    show max 0 ((a.bytes_on_disk : Int) -
      ((List.lookup a.appid maps.prev).getD a.bytes_on_disk : Int)) = 0
    rw [hb]
    have hle : (a.bytes_on_disk : Int) - (pb : Int) ≤ 0 :=
      sub_nonpos.mpr (by exact_mod_cast hlt.le)
    exact max_eq_left hle
  · show (if max 0 ((a.bytes_on_disk : Int) -
        ((List.lookup a.appid maps.prev).getD a.bytes_on_disk : Int)) < 256 * 1024 then
        "paused or idle" else "downloading") = "paused or idle" ↔
      max 0 ((a.bytes_on_disk : Int) -
        ((List.lookup a.appid maps.prev).getD a.bytes_on_disk : Int)) < 256 * 1024
    by_cases hd : max 0 ((a.bytes_on_disk : Int) -
        ((List.lookup a.appid maps.prev).getD a.bytes_on_disk : Int)) < 256 * 1024
    · rw [if_pos hd]
      exact ⟨fun _ => hd, fun _ => rfl⟩
    · rw [if_neg hd]
      exact ⟨fun hcontra => absurd hcontra (by decide), fun hcontra => absurd hcontra hd⟩
  · show (if max 0 ((a.bytes_on_disk : Int) -
        ((List.lookup a.appid maps.prev).getD a.bytes_on_disk : Int)) < 256 * 1024 then
        "paused or idle" else "downloading") = "downloading" ↔
      ¬max 0 ((a.bytes_on_disk : Int) -
        ((List.lookup a.appid maps.prev).getD a.bytes_on_disk : Int)) < 256 * 1024
    by_cases hd : max 0 ((a.bytes_on_disk : Int) -
        ((List.lookup a.appid maps.prev).getD a.bytes_on_disk : Int)) < 256 * 1024
    · rw [if_pos hd]
      exact ⟨fun hcontra => absurd hcontra (by decide), fun hcontra => absurd hd hcontra⟩
    · rw [if_neg hd]
      exact ⟨fun _ => hd, fun _ => rfl⟩

/-- C5 (witness): the statement at a concrete round in which the package's
size shrank from the recorded 500 bytes to 400. -/
theorem rate_delta_clamp_and_threshold_witness :
    ∃ r : Report, (rateRound 60 ⟨[("123", 500)], [("123", 10)]⟩ 70 (some shrunkObs)).2 =
        some r ∧
      r.delta = max 0 ((shrunkObs.bytes_on_disk : Int) - ((500 : Nat) : Int)) ∧
      0 ≤ r.delta ∧
      (shrunkObs.bytes_on_disk < 500 → r.delta = 0) ∧
      (r.status = "paused or idle" ↔ r.delta < 256 * 1024) ∧
      (r.status = "downloading" ↔ ¬r.delta < 256 * 1024) :=
  rate_delta_clamp_and_threshold 60 70 ⟨[("123", 500)], [("123", 10)]⟩ shrunkObs 500 rfl

/-- C6: the parser records only the first value seen for each key — if the
first recordable occurrence of key `k` in the file carries value `v`,
then the parsed record maps `k` to `v`, later duplicates notwithstanding —
and re-parsing the same text yields the same record (the parser is a pure
function of the text). -/
theorem parse_acf_first_occurrence_wins (ls : List (List Char)) (k v : String)
    (h : List.lookup k (recordablePairs 0 ls) = some v) :
    List.lookup k (parse_acf (some ls)) = some v ∧
    parse_acf (some ls) = parse_acf (some ls) :=
  ⟨(parse_acf_lookup ls k).trans h, rfl⟩

/-- C6 (witness): the statement at a concrete manifest with a duplicated
`name` key; the first value `First` wins. -/
theorem parse_acf_first_occurrence_wins_witness :
    List.lookup "name" (recordablePairs 0 dupLines) = some "First" ∧
    List.lookup "name" (parse_acf (some dupLines)) = some "First" :=
  ⟨rfl, (parse_acf_first_occurrence_wins dupLines "name" "First" rfl).1⟩

/-- C7: the parser never faults on unbalanced braces (it is a total
function): a closing-brace line at depth zero leaves the stack empty, in
general a closing-brace line takes the depth from `n` to `n - 1` floored
at zero, and the parsed record answers every lookup exactly as the
first-match lookup in the stream of pairs matched while the nesting depth
was ≥ 1 — so pairs matched at depth 0 are never recorded. -/
theorem parse_acf_depth_floor_and_exact_pairs :
    (∀ data : List (String × String), (parseStep ⟨[], data⟩ [rbrace]).stack = []) ∧
    (∀ st : ParseState, (parseStep st [rbrace]).stack.length = st.stack.length - 1) ∧
    (∀ (ls : List (List Char)) (k : String),
      List.lookup k (parse_acf (some ls)) = List.lookup k (recordablePairs 0 ls)) := by
  refine ⟨fun data => rfl, fun st => ?_, fun ls k => parse_acf_lookup ls k⟩
  obtain ⟨stk, dat⟩ := st
  cases stk with
  | nil => rfl
  | cons c t => rfl

/-- C8: the Directory Size Scanner returns the sum of the sizes of every
regular file reachable by recursive descent whose `stat` succeeds; a
nonexistent or untraversable root yields 0, an empty directory yields 0,
files of sizes 100, 200, 300 yield 600, and any per-file or per-subtree
failure contributes zero instead of aborting the scan. -/
theorem dir_size_bytes_sums_reachable_files :
    (∀ l : FS, dir_size_bytes (some l) = (reachSizes l).sum) ∧
    dir_size_bytes none = 0 ∧
    dir_size_bytes (some .nil) = 0 ∧
    dir_size_bytes (some (.file (some 100) (.file (some 200) (.file (some 300) .nil)))) = 600 ∧
    (∀ rest : FS, walkSize (.file none rest) = walkSize rest) ∧
    (∀ rest : FS, walkSize (.dirUnreadable rest) = walkSize rest) :=
  ⟨fun l => walkSize_eq_sum l, rfl, rfl, rfl, fun _ => rfl, fun _ => rfl⟩

/-- C9: RateState is mutated only for the currently active package, once
per round: a round with no active download leaves both maps untouched; a
round with an active download leaves every other package's entries
unchanged and sets the active package's entries to the current size and
the current time. -/
theorem rateState_frame (interval now : ℚ) (maps : RateMaps) :
    rateRound interval maps now none = (maps, none) ∧
    ∀ a : ActiveDownload,
      (∀ k, k ≠ a.appid →
        List.lookup k (rateRound interval maps now (some a)).1.prev =
          List.lookup k maps.prev ∧
        List.lookup k (rateRound interval maps now (some a)).1.prev_time =
          List.lookup k maps.prev_time) ∧
      List.lookup a.appid (rateRound interval maps now (some a)).1.prev =
        some a.bytes_on_disk ∧
      List.lookup a.appid (rateRound interval maps now (some a)).1.prev_time = some now := by
  refine ⟨rfl, fun a => ⟨fun k hk => ⟨?_, ?_⟩, ?_, ?_⟩⟩
  · exact lookup_dictSet_ne maps.prev a.appid k a.bytes_on_disk hk
  · exact lookup_dictSet_ne maps.prev_time a.appid k now hk
  · exact lookup_dictSet_self maps.prev a.appid a.bytes_on_disk
  · exact lookup_dictSet_self maps.prev_time a.appid now

/-- C9 (witness): the frame statement at a concrete round: with no active
download the maps are untouched, and with package `"9"` active the entry
of `"7"` persists while `"9"` is set to its size and the current time. -/
theorem rateState_frame_witness :
    rateRound 60 ⟨[("7", 5)], [("7", 2)]⟩ 100 none = (⟨[("7", 5)], [("7", 2)]⟩, none) ∧
    List.lookup "7" (rateRound 60 ⟨[("7", 5)], [("7", 2)]⟩ 100 (some prevObs)).1.prev =
      some 5 ∧
    List.lookup "9" (rateRound 60 ⟨[("7", 5)], [("7", 2)]⟩ 100 (some prevObs)).1.prev =
      some 42 ∧
    List.lookup "9" (rateRound 60 ⟨[("7", 5)], [("7", 2)]⟩ 100 (some prevObs)).1.prev_time =
      some 100 := by
  refine ⟨(rateState_frame 60 100 ⟨[("7", 5)], [("7", 2)]⟩).1, ?_, ?_, ?_⟩
  · have h7 := (((rateState_frame 60 100 ⟨[("7", 5)], [("7", 2)]⟩).2 prevObs).1 "7"
      (by decide)).1
    rw [h7]
    rfl
  · exact ((rateState_frame 60 100 ⟨[("7", 5)], [("7", 2)]⟩).2 prevObs).2.1
  · exact ((rateState_frame 60 100 ⟨[("7", 5)], [("7", 2)]⟩).2 prevObs).2.2

/-- C10: the resolved display name of an ActiveDownload is never the empty
string; in particular, when the manifest's `name` key is present with an
empty value, the synthesized "AppID <id>" label is used instead. -/
theorem display_name_never_empty (fs : ScanFS) (a : ActiveDownload)
    (h : find_active_download fs = .ok (some a)) :
    a.name ≠ "" ∧
    (List.lookup "name" (parse_acf (fs.manifests a.appid)) = some "" →
      a.name = "AppID " ++ a.appid) := by
  obtain ⟨c, _, ha⟩ := find_ok_some fs a h
  subst ha
  constructor
  · show pyOr (List.lookup "name" (parse_acf (fs.manifests
      (mkActive fs c.2 (dir_size_bytes c.2.tree)).appid)))
      ("AppID " ++ (mkActive fs c.2 (dir_size_bytes c.2.tree)).appid) ≠ ""
    cases hl : List.lookup "name" (parse_acf (fs.manifests
      (mkActive fs c.2 (dir_size_bytes c.2.tree)).appid)) with
    | none => simpa [pyOr] using appid_label_ne_empty _
    | some v =>
      by_cases hv : v = ""
      · simp only [pyOr, hv, if_pos rfl]
        exact appid_label_ne_empty _
      · simp only [pyOr, if_neg hv]
        exact hv
  · intro hv
    show pyOr (List.lookup "name" (parse_acf (fs.manifests
      (mkActive fs c.2 (dir_size_bytes c.2.tree)).appid)))
      ("AppID " ++ (mkActive fs c.2 (dir_size_bytes c.2.tree)).appid) =
      "AppID " ++ (mkActive fs c.2 (dir_size_bytes c.2.tree)).appid
    rw [hv]
    simp [pyOr]

/-- C10 (witness): the statement at a concrete scan with no manifest; the
resolved name is "AppID 7", which is nonempty. -/
theorem display_name_never_empty_witness :
    (⟨"7", "AppID 7", "downloading", "7", 5⟩ : ActiveDownload).name ≠ "" ∧
    (List.lookup "name" (parse_acf (noNameFS.manifests
      (⟨"7", "AppID 7", "downloading", "7", 5⟩ : ActiveDownload).appid)) = some "" →
      (⟨"7", "AppID 7", "downloading", "7", 5⟩ : ActiveDownload).name =
        "AppID " ++ (⟨"7", "AppID 7", "downloading", "7", 5⟩ : ActiveDownload).appid) :=
  display_name_never_empty noNameFS ⟨"7", "AppID 7", "downloading", "7", 5⟩ rfl

end SDM
